import Mathlib

/-!
Verification of the release-lineage resolution and lead-time aggregation
pipeline of `releases.py` (tekton-metrics).  The Python functions
`belongs_to`, `lead_time_prs`, `github_request`, `github_from_cache` and
`github_to_cache` are shallowly embedded as executable Lean definitions;
external collaborators (the git commit graph, the GitHub API, the on-disk
cache, the wall clock) are modelled as explicit inputs.
-/

namespace Releases

/-- Outcome of the commit-graph query `repo.git.describe(commit_sha, '--contains')`
(releases.py line 175): either the describe output string, or a
`git.exc.GitCommandError` carrying its message (`str(gce)`). -/
inductive GitResult where
  | ok (reference : String)
  | err (msg : String)
deriving DecidableEq

/-- Model of Python `needle in hay` on strings: `needle` occurs as a
contiguous substring of `hay` (used for `'fatal: cannot describe' in str(gce)`,
releases.py line 178). -/
def hasSubstr (hay needle : String) : Bool :=
  go needle.data hay.data
where
  go (n : List Char) : List Char → Bool
    | [] => n.isEmpty
    | c :: t => n.isPrefixOf (c :: t) || go n t

/-- Character class `[0-9]` of the tag regex (releases.py line 182). -/
def isPyDigit (c : Char) : Bool :=
  48 ≤ c.toNat && c.toNat ≤ 57

/-- Model of `re.search('^([^~]*)(?:$|~[0-9]+$)', reference)` returning
group 1 (releases.py line 182), on the character list of `reference`.
The pattern is anchored at the start; the greedy group `[^~]*` takes the
longest tilde-free prefix, after which either the string ends (Python `$`
also matches just before a single final newline) or a `~` followed by
digits runs to the end.  Backtracking the group cannot help, because any
shorter tilde-free prefix is followed by a non-tilde character, on which
neither alternative can start. -/
def tagSearchList (cs : List Char) : Option (List Char) :=
  match cs.dropWhile (· != '~') with
  | [] => some (cs.takeWhile (· != '~'))
  | _ :: rest =>
      let ds := rest.takeWhile isPyDigit
      let tl := rest.dropWhile isPyDigit
      if ds ≠ [] ∧ (tl = [] ∨ tl = [ '\n' ]) then some (cs.takeWhile (· != '~'))
      else none

/-- Group 1 of the tag regex as a `String`, `none` when the regex does not
match (in Python: `tag.group(1) if tag else None`, releases.py line 183). -/
def tagSearch (s : String) : Option String :=
  (tagSearchList s.data).map fun l => String.mk l

/-- Embedding of `belongs_to(commit_sha, repo)` (releases.py lines 172-183).
The commit graph is the explicit input `describe`.  A `GitCommandError`
whose message contains `fatal: cannot describe` yields `none` (bare
`return`); any other `GitCommandError` is re-raised, modelled as
`Except.error`; otherwise the tag regex is applied to the describe
output. -/
def belongs_to (describe : String → GitResult) (commit_sha : String) :
    Except String (Option String) :=
  match describe commit_sha with
  | .err msg =>
      if hasSubstr msg "fatal: cannot describe" then .ok none
      else .error msg
  | .ok reference => .ok (tagSearch reference)

theorem takeWhile_append_all {p : Char → Bool} {l₁ l₂ : List Char}
    (h : ∀ c ∈ l₁, p c = true) :
    (l₁ ++ l₂).takeWhile p = l₁ ++ l₂.takeWhile p := by
  induction l₁ with
  | nil => simp
  | cons a l ih =>
      rw [List.cons_append, List.takeWhile_cons_of_pos (h a (by simp)),
        ih fun c hc => h c (by simp [hc]), List.cons_append]

theorem dropWhile_append_all {p : Char → Bool} {l₁ l₂ : List Char}
    (h : ∀ c ∈ l₁, p c = true) :
    (l₁ ++ l₂).dropWhile p = l₂.dropWhile p := by
  induction l₁ with
  | nil => simp
  | cons a l ih =>
      rw [List.cons_append, List.dropWhile_cons_of_pos (h a (by simp))]
      exact ih fun c hc => h c (by simp [hc])

theorem takeWhile_eq_self_of_all {p : Char → Bool} {l : List Char}
    (h : ∀ c ∈ l, p c = true) : l.takeWhile p = l := by
  induction l with
  | nil => rfl
  | cons a t ih =>
      rw [List.takeWhile_cons_of_pos (h a (by simp)),
        ih fun c hc => h c (by simp [hc])]

theorem dropWhile_eq_nil_of_all {p : Char → Bool} {l : List Char}
    (h : ∀ c ∈ l, p c = true) : l.dropWhile p = [] := by
  induction l with
  | nil => rfl
  | cons a t ih =>
      rw [List.dropWhile_cons_of_pos (h a (by simp))]
      exact ih fun c hc => h c (by simp [hc])

/-- On a compound describe output `tag~N` (tilde-free tag, non-empty digit
suffix), the tag regex keeps exactly the tag portion. -/
theorem tagSearch_compound (tag ds : String)
    (htag : ∀ c ∈ tag.data, c ≠ '~')
    (hne : ds.data ≠ []) (hds : ∀ c ∈ ds.data, isPyDigit c = true) :
    tagSearch (tag ++ "~" ++ ds) = some tag := by
  have hdata : (tag ++ "~" ++ ds).data = tag.data ++ ('~' :: ds.data) := by
    show (tag.data ++ "~".data) ++ ds.data = _
    simp [List.append_assoc]
  have htag' : ∀ c ∈ tag.data, (c != '~') = true := by
    intro c hc
    simpa using htag c hc
  have hdrop : ((tag ++ "~" ++ ds).data).dropWhile (· != '~') = '~' :: ds.data := by
    rw [hdata, dropWhile_append_all htag']
    simp [List.dropWhile_cons]
  have htake : ((tag ++ "~" ++ ds).data).takeWhile (· != '~') = tag.data := by
    rw [hdata, takeWhile_append_all htag']
    simp [List.takeWhile_cons]
  unfold tagSearch tagSearchList
  rw [hdrop]
  simp only [takeWhile_eq_self_of_all hds, dropWhile_eq_nil_of_all hds]
  rw [if_pos ⟨hne, by simp⟩, htake]
  rfl

/-- Reduction of `belongs_to` on a successful describe query. -/
theorem belongs_to_of_ok (describe : String → GitResult) (sha ref : String)
    (h : describe sha = .ok ref) :
    belongs_to describe sha = .ok (tagSearch ref) := by
  unfold belongs_to
  rw [h]

/-- Reduction of `belongs_to` on a failed describe query. -/
theorem belongs_to_of_err (describe : String → GitResult) (sha msg : String)
    (h : describe sha = .err msg) :
    belongs_to describe sha =
      if hasSubstr msg "fatal: cannot describe" then .ok none
      else .error msg := by
  unfold belongs_to
  rw [h]

/-- C1: when the commit-graph query returns a compound descriptor `tag~N`
(`tag` tilde-free, `N` a non-empty digit string), `belongs_to` retains only
the tag portion and discards the numeric suffix; and when the regex finds
no tag in the describe output, the result is unresolved (`none`). -/
theorem belongs_to_keeps_tag_portion :
    (∀ (describe : String → GitResult) (sha : String) (tag ds : String),
      describe sha = .ok (tag ++ "~" ++ ds) →
      (∀ c ∈ tag.data, c ≠ '~') →
      ds.data ≠ [] →
      (∀ c ∈ ds.data, isPyDigit c = true) →
      belongs_to describe sha = .ok (some tag)) ∧
    (∀ (describe : String → GitResult) (sha ref : String),
      describe sha = .ok ref →
      tagSearch ref = none →
      belongs_to describe sha = .ok none) := by
  constructor
  · intro describe sha tag ds hd htag hne hds
    rw [belongs_to_of_ok describe sha _ hd, tagSearch_compound tag ds htag hne hds]
  · intro describe sha ref hd hts
    rw [belongs_to_of_ok describe sha ref hd, hts]

/-- Witness for C1: on describe output `v1.0.0~3` the resolver returns
`v1.0.0`; on output `pipeline~2x` (digits not running to the end) the regex
finds no tag and the resolver returns `none`. -/
theorem belongs_to_keeps_tag_portion_witness :
    belongs_to (fun _ => .ok "v1.0.0~3") "abc123" = .ok (some "v1.0.0") ∧
    belongs_to (fun _ => .ok "pipeline~2x") "abc123" = .ok none :=
  ⟨belongs_to_keeps_tag_portion.1 (fun _ => .ok "v1.0.0~3") "abc123" "v1.0.0" "3"
      rfl (by decide) (by decide) (by decide),
   belongs_to_keeps_tag_portion.2 (fun _ => .ok "pipeline~2x") "abc123" "pipeline~2x"
      rfl (by decide)⟩

/-- C2: when the commit-graph query fails, `belongs_to` returns unresolved
(`none`) exactly when the error message contains `fatal: cannot describe`;
every other query failure is re-raised (propagates as `Except.error`). -/
theorem belongs_to_error_split
    (describe : String → GitResult) (sha msg : String)
    (h : describe sha = .err msg) :
    (hasSubstr msg "fatal: cannot describe" = true →
      belongs_to describe sha = .ok none) ∧
    (hasSubstr msg "fatal: cannot describe" = false →
      belongs_to describe sha = .error msg) := by
  constructor
  · intro hc
    rw [belongs_to_of_err describe sha msg h, if_pos hc]
  · intro hc
    rw [belongs_to_of_err describe sha msg h, if_neg (by simp [hc])]

/-- Witness for C2: a `cannot describe` failure is absorbed into `none`,
while a malformed-repository failure propagates as an error. -/
theorem belongs_to_error_split_witness :
    belongs_to (fun _ => .err "fatal: cannot describe commit abc") "abc" = .ok none ∧
    belongs_to (fun _ => .err "fatal: bad object") "abc" =
      .error "fatal: bad object" :=
  ⟨(belongs_to_error_split (fun _ => .err "fatal: cannot describe commit abc")
      "abc" "fatal: cannot describe commit abc" rfl).1 (by decide),
   (belongs_to_error_split (fun _ => .err "fatal: bad object")
      "abc" "fatal: bad object" rfl).2 (by decide)⟩

/-- Release datum fetched from the GitHub releases API: the published tag
name and its publish timestamp (releases.py line 199).  Timestamps are the
nanosecond epoch values that `pd.Timestamp` parses ISO8601 strings into. -/
structure Release where
  tag_name : String
  published_at : Int
deriving DecidableEq

/-- Closed pull request as fetched from the GitHub API (releases.py
line 201): `merged_at` is `none` for the JSON `null` of an unmerged PR
(falsy in the `if not pr['merged_at']` filter, line 205). -/
structure PullRequest where
  number : Int
  created_at : Int
  merged_at : Option Int
  merge_commit_sha : String
deriving DecidableEq

/-- Lookup in `releases_published = {r['tag_name']: r['published_at'] for r
in releases_raw}` (releases.py line 199).  As in a Python dict
comprehension, a later duplicate key overwrites an earlier one, so the
last binding wins.  `none` models `release not in releases_published`. -/
def releases_published (releases : List Release) (tag : String) : Option Int :=
  match releases with
  | [] => none
  | r :: rest =>
      match releases_published rest tag with
      | some v => some v
      | none => if r.tag_name = tag then some r.published_at else none

/-- Row of `prs_data_list` (releases.py lines 214-219). -/
structure PRData where
  number : Int
  release : String
  created_at : Int
  merged_at : Int
  released_at : Int
deriving DecidableEq

/-- The PR loop of `lead_time_prs` (releases.py lines 203-219): drop
unmerged PRs, resolve the merge commit via `belongs_to` (an exception
there aborts the run, hence `Except`), drop PRs whose resolved release is
falsy (`None` or the empty string) or not a published release, and collect
the timestamps of the surviving PRs together with the publish timestamp of
their release. -/
def prsDataList (describe : String → GitResult) (releases : List Release) :
    List PullRequest → Except String (List PRData)
  | [] => .ok []
  | pr :: rest =>
      match pr.merged_at with
      | none => prsDataList describe releases rest
      | some merged =>
          match belongs_to describe pr.merge_commit_sha with
          | .error e => .error e
          | .ok none => prsDataList describe releases rest
          | .ok (some release) =>
              if release = "" then prsDataList describe releases rest
              else
                match releases_published releases release with
                | none => prsDataList describe releases rest
                | some published =>
                    match prsDataList describe releases rest with
                    | .error e => .error e
                    | .ok l =>
                        .ok (⟨pr.number, release, pr.created_at, merged, published⟩ :: l)

/-- Nanoseconds per day, the conversion factor of `timedelta64[ns]` to
`timedelta64[D]`. -/
def nsPerDay : Int := 86400000000000

/-- Model of `.astype('timedelta64[D]')` on a nanosecond timedelta
(releases.py lines 224-227): the underlying numpy datetime cast divides by
the unit conversion factor rounding towards negative infinity (its strided
cast applies `(dt - (denom - 1)) / denom` for negative values), i.e. floor
division. -/
def toDays (t : Int) : Int := Int.fdiv t nsPerDay

/-- Column `open_to_release_days` (releases.py lines 224-225). -/
def openDays (r : PRData) : Int := toDays (r.released_at - r.created_at)

/-- Column `merged_to_release_days` (releases.py lines 226-227). -/
def mergedDays (r : PRData) : Int := toDays (r.released_at - r.merged_at)

/-- Arithmetic mean as computed by `np.average` / `DataFrame.mean` on a
column of whole-day integers, in exact rational arithmetic. -/
def meanQ (xs : List Int) : ℚ :=
  (xs.map fun x => (Int.cast x : ℚ)).sum / (xs.length : ℚ)

/-- Pair of mean durations reported for a repository or for one release
group. -/
structure RepoStats where
  open_to_release_days : ℚ
  merged_to_release_days : ℚ
deriving DecidableEq

/-- Embedding of `prs_all[repo] = stats.apply(np.average, axis=0)`
(releases.py line 228): column-wise mean over all resolved PRs of the
repository. -/
def overallStats (l : List PRData) : RepoStats :=
  ⟨meanQ (l.map openDays), meanQ (l.map mergedDays)⟩

/-- Lexicographic comparison of character lists by code point, the order
Python uses to compare `str` values (and hence the order pandas sorts
string group keys in). -/
def strLeAux : List Char → List Char → Bool
  | [], _ => true
  | _ :: _, [] => false
  | a :: as, b :: bs =>
      if a < b then true
      else if b < a then false
      else strLeAux as bs

/-- Python string `<=` on tag names. -/
def strLe (a b : String) : Bool := strLeAux a.data b.data

/-- Insertion step of the key sort. -/
def insertKey (k : String) : List String → List String
  | [] => [k]
  | k' :: ks => if strLe k k' then k :: k' :: ks else k' :: insertKey k ks

/-- Insertion sort of group keys in ascending `strLe` order. -/
def sortKeys : List String → List String
  | [] => []
  | k :: ks => insertKey k (sortKeys ks)

/-- Group keys of `stats.groupby('release')` (releases.py line 232): the
distinct release values, in ascending order, because pandas `groupby`
sorts group keys by default (`sort=True`). -/
def groupKeys (l : List PRData) : List String :=
  sortKeys ((l.map fun r => r.release).dedup)

/-- Groups of `stats.groupby('release')`: each key paired with the rows
carrying that release. -/
def groupsOf (l : List PRData) : List (String × List PRData) :=
  (groupKeys l).map fun k => (k, l.filter fun r => r.release = k)

/-- Column-wise mean of one release group. -/
def statsOfGroup (ms : List PRData) : RepoStats :=
  ⟨meanQ (ms.map openDays), meanQ (ms.map mergedDays)⟩

/-- Embedding of `stats.groupby('release').mean()` (releases.py
line 232): per-release mean durations, keyed and ordered by the sorted
group keys. -/
def groupby (l : List PRData) : List (String × RepoStats) :=
  (groupsOf l).map fun g => (g.1, statsOfGroup g.2)

/-- Lead-time output of one repository: the repository-wide means stored
into `prs_all[repo]` and the per-release breakdown that is plotted. -/
structure RepoOutput where
  overall : RepoStats
  by_release : List (String × RepoStats)
deriving DecidableEq

/-- Body of the repository loop of `lead_time_prs` (releases.py
lines 195-234): a repository with no releases is skipped outright
(`if not releases_raw: continue`, before any PR is examined), a repository
whose resolved PR set is empty produces no output
(`if not prs_data.empty`), and otherwise the overall means and the
per-release breakdown are produced. -/
def leadTimeRepo (describe : String → GitResult) (releases : List Release)
    (prs : List PullRequest) : Except String (Option RepoOutput) :=
  if releases = [] then .ok none
  else
    match prsDataList describe releases prs with
    | .error e => .error e
    | .ok [] => .ok none
    | .ok l => .ok (some ⟨overallStats l, groupby l⟩)

/-- Per-repository input of `lead_time_prs`: the repository name, the data
fetched for it, and its local commit graph (the `git describe` oracle of
the clone). -/
structure RepoInput where
  name : String
  releases : List Release
  prs : List PullRequest
  describe : String → GitResult

/-- Embedding of `lead_time_prs()` (releases.py lines 186-237) over the
fetched data: repositories are processed in order, skipped repositories
contribute nothing, and an uncaught `GitCommandError` aborts the run. -/
def lead_time_prs : List RepoInput → Except String (List (String × RepoOutput))
  | [] => .ok []
  | r :: rest =>
      match leadTimeRepo r.describe r.releases r.prs with
      | .error e => .error e
      | .ok none => lead_time_prs rest
      | .ok (some out) =>
          match lead_time_prs rest with
          | .error e => .error e
          | .ok acc => .ok ((r.name, out) :: acc)

/-- Ambient world of one run: the point-in-time data snapshot plus the
wall clock at the moment the run starts.  The source never reads the
clock in `belongs_to` or `lead_time_prs`, which the embedding reflects by
`runPipeline` not consulting `now`. -/
structure Env where
  repos : List RepoInput
  now : Int

/-- One full run of the lead-time pipeline in the ambient world `e`. -/
def runPipeline (e : Env) : Except String (List (String × RepoOutput)) :=
  lead_time_prs e.repos

/-- JSON value as loaded by `json.load` from a cache file or produced by
`r.json()` (numbers restricted to integers, which is all the cached GitHub
payloads used here contain). -/
inductive JVal where
  | null
  | bool (b : Bool)
  | num (n : Int)
  | str (s : String)
  | arr (elems : List JVal)
  | obj (fields : List (String × JVal))

/-- Python truthiness of a JSON value, as tested by
`if cache := github_from_cache(url)` (releases.py line 67). -/
def truthy : JVal → Bool
  | .null => false
  | .bool b => b
  | .num n => n != 0
  | .str s => s ≠ ""
  | .arr elems => !elems.isEmpty
  | .obj fields => !fields.isEmpty

/-- External collaborators of the caching layer: the content-address
function (`hashlib.sha256(url).hexdigest()`), the on-disk cache directory
(`none` when no file exists for a key), and the network retrieval
(`_github_single_request` plus the pagination loop of releases.py
lines 74-79, which never yields control to the cache). -/
structure CacheEnv where
  sha256hex : String → String
  store : String → Option JVal
  fetch : String → JVal

/-- Embedding of `github_from_cache(url)` (releases.py lines 84-90): the
parsed cache file when one exists, else the empty string. -/
def github_from_cache (e : CacheEnv) (url : String) : JVal :=
  match e.store (e.sha256hex url) with
  | some j => j
  | none => .str ""

/-- Embedding of `github_to_cache(url, jsondata)` (releases.py
lines 93-98): write the payload under the hash of the url. -/
def github_to_cache (e : CacheEnv) (url : String) (jsondata : JVal) : CacheEnv :=
  { e with store := fun k => if k = e.sha256hex url then some jsondata else e.store k }

/-- Embedding of `github_request(url)` (releases.py lines 66-81): return
the cached payload when it is truthy, otherwise fetch, cache and return
the fresh result. -/
def github_request (e : CacheEnv) (url : String) : JVal × CacheEnv :=
  let cache := github_from_cache e url
  if truthy cache then (cache, e)
  else
    let result := e.fetch url
    (result, github_to_cache e url result)

/-- Nanosecond timestamp of midnight of day `n` (whole days, arbitrary
epoch), for concrete inputs. -/
def dayNs (n : Int) : Int := n * nsPerDay

/-- Commit graph of the demonstration repository of spec §8: `sha1` is
first contained in `v1.0.0`, `sha2` in `v1.1.0` (two commits past the
tag), `sha3` in the unpublished tag `internal-marker`; everything else is
unreachable from any tag. -/
def demoDescribe : String → GitResult := fun sha =>
  if sha = "sha1" then .ok "v1.0.0"
  else if sha = "sha2" then .ok "v1.1.0~2"
  else if sha = "sha3" then .ok "internal-marker"
  else .err "fatal: cannot describe anything"

/-- Published releases of the demonstration repository (days 10 and 41,
i.e. 2024-01-10 and 2024-02-10 of spec §8). -/
def demoReleases : List Release :=
  [⟨"v1.0.0", dayNs 10⟩, ⟨"v1.1.0", dayNs 41⟩]

/-- Change #3 of spec §8: merged, but its merge commit resolves to the
unpublished tag `internal-marker`. -/
def demoPR3 : PullRequest := ⟨3, dayNs 15, some (dayNs 18), "sha3"⟩

/-- Closed PRs of the demonstration repository: changes #1 and #2 of
spec §8, the unpublished-tag change #3, and an unmerged change #4. -/
def demoPRs : List PullRequest :=
  [⟨1, dayNs 1, some (dayNs 5), "sha1"⟩,
   ⟨2, dayNs 20, some (dayNs 25), "sha2"⟩,
   demoPR3,
   ⟨4, dayNs 22, none, "sha4"⟩]

/-- Rows that `prsDataList` produces for the demonstration repository:
changes #1 and #2 survive, #3 and #4 are dropped. -/
def demoRecords : List PRData :=
  [⟨1, "v1.0.0", dayNs 1, dayNs 5, dayNs 10⟩,
   ⟨2, "v1.1.0", dayNs 20, dayNs 25, dayNs 41⟩]

/-- The demonstration repository as one `lead_time_prs` input. -/
def demoRepo : RepoInput := ⟨"demo", demoReleases, demoPRs, demoDescribe⟩

/-- Processing one PR commutes with any change of the remaining PR list
that leaves its outcome equal: the loop handles `q` the same way on both
sides. -/
theorem prsDataList_cons_congr (describe : String → GitResult)
    (releases : List Release) (q : PullRequest) {xs ys : List PullRequest}
    (h : prsDataList describe releases xs = prsDataList describe releases ys) :
    prsDataList describe releases (q :: xs) =
      prsDataList describe releases (q :: ys) := by
  unfold prsDataList
  cases hq : q.merged_at with
  | none => exact h
  | some m =>
      cases hb : belongs_to describe q.merge_commit_sha with
      | error e => rfl
      | ok rel? =>
          cases rel? with
          | none => exact h
          | some rel =>
              by_cases hrel : rel = ""
              · simp only [hrel, if_pos rfl]
                exact h
              · simp only [if_neg hrel]
                cases releases_published releases rel with
                | none => exact h
                | some published => rw [h]

/-- Dropping an unresolvable PR from the list leaves the collected rows
unchanged. -/
theorem prsDataList_skip (describe : String → GitResult)
    (releases : List Release) (pre post : List PullRequest)
    (pr : PullRequest) (m : Int) (hm : pr.merged_at = some m)
    (hres : belongs_to describe pr.merge_commit_sha = .ok none ∨
      ∃ t, belongs_to describe pr.merge_commit_sha = .ok (some t) ∧
        releases_published releases t = none) :
    prsDataList describe releases (pre ++ pr :: post) =
      prsDataList describe releases (pre ++ post) := by
  induction pre with
  | nil =>
      simp only [List.nil_append]
      conv_lhs => unfold prsDataList
      rw [hm]
      rcases hres with h | ⟨t, ht, hl⟩
      · rw [h]
      · rw [ht]
        by_cases hte : t = ""
        · subst hte
          rfl
        · simp only [if_neg hte]
          rw [hl]
  | cons q rest ih =>
      simp only [List.cons_append]
      exact prsDataList_cons_congr describe releases q ih

/-- C3: a merged change whose merge commit resolves to no tag, or to a tag
that is not among the published releases, contributes to no statistic: the
whole lead-time output of the repository — overall means and every
per-release group — is the same as if the change were absent. -/
theorem unresolved_excluded (describe : String → GitResult)
    (releases : List Release) (pre post : List PullRequest)
    (pr : PullRequest) (m : Int) (hm : pr.merged_at = some m)
    (hres : belongs_to describe pr.merge_commit_sha = .ok none ∨
      ∃ t, belongs_to describe pr.merge_commit_sha = .ok (some t) ∧
        releases_published releases t = none) :
    leadTimeRepo describe releases (pre ++ pr :: post) =
      leadTimeRepo describe releases (pre ++ post) := by
  unfold leadTimeRepo
  rw [prsDataList_skip describe releases pre post pr m hm hres]

/-- Witness for C3: dropping change #3 of the demonstration repository
(resolving to the unpublished tag `internal-marker`) from the PR list does
not change the repository's lead-time output. -/
theorem unresolved_excluded_witness :
    leadTimeRepo demoDescribe demoReleases
        ([⟨1, dayNs 1, some (dayNs 5), "sha1"⟩,
          ⟨2, dayNs 20, some (dayNs 25), "sha2"⟩] ++ demoPR3 ::
         [⟨4, dayNs 22, none, "sha4"⟩]) =
      leadTimeRepo demoDescribe demoReleases
        ([⟨1, dayNs 1, some (dayNs 5), "sha1"⟩,
          ⟨2, dayNs 20, some (dayNs 25), "sha2"⟩] ++
         [⟨4, dayNs 22, none, "sha4"⟩]) :=
  unresolved_excluded demoDescribe demoReleases
    [⟨1, dayNs 1, some (dayNs 5), "sha1"⟩, ⟨2, dayNs 20, some (dayNs 25), "sha2"⟩]
    [⟨4, dayNs 22, none, "sha4"⟩] demoPR3 (dayNs 18) rfl
    (Or.inr ⟨"internal-marker", rfl, rfl⟩)

/-- C7: a repository whose fetched release list is empty is skipped
entirely — regardless of its PRs or the state of its commit graph it
yields no lead-time output and no error, and the remaining repositories
are processed as if it were absent. -/
theorem no_release_short_circuit (pre post : List RepoInput)
    (name : String) (prs : List PullRequest) (describe : String → GitResult) :
    lead_time_prs (pre ++ ⟨name, [], prs, describe⟩ :: post) =
      lead_time_prs (pre ++ post) := by
  induction pre with
  | nil =>
      simp only [List.nil_append]
      conv_lhs => unfold lead_time_prs
      simp [leadTimeRepo]
  | cons r rest ih =>
      simp only [List.cons_append]
      conv_lhs => unfold lead_time_prs
      conv_rhs => unfold lead_time_prs
      rw [ih]

/-- C9: the pipeline is deterministic — two runs in ambient worlds that
agree on the fetched releases, changes and commit-graph answers produce
identical output, whatever the wall clock reads. -/
theorem pipeline_deterministic (e₁ e₂ : Env) (h : e₁.repos = e₂.repos) :
    runPipeline e₁ = runPipeline e₂ := by
  unfold runPipeline
  rw [h]

/-- Witness for C9: running the demonstration repository at two different
wall-clock instants gives identical output. -/
theorem pipeline_deterministic_witness :
    runPipeline ⟨[demoRepo], 0⟩ = runPipeline ⟨[demoRepo], 1700000000000000000⟩ :=
  pipeline_deterministic ⟨[demoRepo], 0⟩ ⟨[demoRepo], 1700000000000000000⟩ rfl

/-- C10: `github_from_cache` signals a missing cache file with the falsy
empty string, and `github_request` accepts a cached value only when it is
truthy, so any falsy cached payload — e.g. a cached empty release list —
is treated as a miss and the url is fetched (and re-cached) anyway. -/
theorem cache_falsy_refetch (e : CacheEnv) (url : String) :
    (e.store (e.sha256hex url) = none → github_from_cache e url = .str "") ∧
    (truthy (github_from_cache e url) = false →
      github_request e url = (e.fetch url, github_to_cache e url (e.fetch url))) := by
  constructor
  · intro h
    unfold github_from_cache
    rw [h]
  · intro h
    show (if truthy (github_from_cache e url) = true
          then (github_from_cache e url, e)
          else (e.fetch url, github_to_cache e url (e.fetch url))) =
        (e.fetch url, github_to_cache e url (e.fetch url))
    rw [h]
    rfl

/-- Cache environment with no cache file on disk. -/
def cacheEnvMissing : CacheEnv :=
  ⟨fun u => u ++ "#hash", fun _ => none, fun _ => .arr [.num 1]⟩

/-- Cache environment whose cache file for every key holds the empty JSON
list (a cached empty releases response). -/
def cacheEnvEmptyList : CacheEnv :=
  ⟨fun u => u ++ "#hash", fun _ => some (.arr []), fun _ => .arr [.num 7]⟩

/-- Witness for C10: with no cache file the lookup yields the empty
string, and with a cached empty list the request refetches. -/
theorem cache_falsy_refetch_witness :
    github_from_cache cacheEnvMissing "u" = .str "" ∧
    github_request cacheEnvEmptyList "u" =
      (cacheEnvEmptyList.fetch "u",
       github_to_cache cacheEnvEmptyList "u" (cacheEnvEmptyList.fetch "u")) :=
  ⟨(cache_falsy_refetch cacheEnvMissing "u").1 rfl,
   (cache_falsy_refetch cacheEnvEmptyList "u").2 rfl⟩

/-- Backdated-release anomaly: the release is published at day 0, before
the PR was even created (day 1) or merged (day 2). -/
def backdatedReleases : List Release := [⟨"v9.9.9", 0⟩]

/-- A PR created on day 1 and merged on day 2, after its release. -/
def backdatedPR : PullRequest := ⟨7, dayNs 1, some (dayNs 2), "shaX"⟩

/-- Commit graph resolving every commit to the backdated release. -/
def backdatedDescribe : String → GitResult := fun _ => .ok "v9.9.9"

/-- Row produced for the backdated-release PR. -/
def backdatedRecord : PRData := ⟨7, "v9.9.9", dayNs 1, dayNs 2, 0⟩

/-- Counterexample to C4: the code does nothing to make the durations
non-negative — with a release published before the change was created or
merged, the resolved change is kept and both of its duration fields are
negative. -/
theorem durations_nonneg_counterexample :
    prsDataList backdatedDescribe backdatedReleases [backdatedPR] =
      .ok [backdatedRecord] ∧
    openDays backdatedRecord < 0 ∧ mergedDays backdatedRecord < 0 := by
  refine ⟨rfl, ?_, ?_⟩ <;> decide

/-- C4 (amended): for every resolved change whose timestamps are
well-formed — the release is published no earlier than the change's
creation, resp. merge — the derived durations are non-negative; the code
itself does not enforce this, and a backdated release yields a negative
duration. -/
theorem durations_nonneg_amended (describe : String → GitResult)
    (releases : List Release) (prs : List PullRequest) (l : List PRData)
    (h : prsDataList describe releases prs = .ok l) :
    ∀ r ∈ l, (r.created_at ≤ r.released_at → 0 ≤ openDays r) ∧
      (r.merged_at ≤ r.released_at → 0 ≤ mergedDays r) := by
  intro r _
  constructor
  · intro hle
    exact Int.fdiv_nonneg (by omega) (by decide)
  · intro hle
    exact Int.fdiv_nonneg (by omega) (by decide)

/-- Witness for C4 (amended): change #1 of the demonstration repository
has well-ordered timestamps and non-negative durations. -/
theorem durations_nonneg_amended_witness :
    0 ≤ openDays ⟨1, "v1.0.0", dayNs 1, dayNs 5, dayNs 10⟩ ∧
    0 ≤ mergedDays ⟨1, "v1.0.0", dayNs 1, dayNs 5, dayNs 10⟩ :=
  ⟨(durations_nonneg_amended demoDescribe demoReleases demoPRs demoRecords rfl
      ⟨1, "v1.0.0", dayNs 1, dayNs 5, dayNs 10⟩ (by simp [demoRecords])).1 (by decide),
   (durations_nonneg_amended demoDescribe demoReleases demoPRs demoRecords rfl
      ⟨1, "v1.0.0", dayNs 1, dayNs 5, dayNs 10⟩ (by simp [demoRecords])).2 (by decide)⟩

/-- Floor characterisation of the nanosecond-to-day conversion. -/
theorem toDays_floor (t : Int) :
    nsPerDay * toDays t ≤ t ∧ t < nsPerDay * (toDays t + 1) := by
  have h := Int.fdiv_add_fmod t nsPerDay
  have h1 : 0 ≤ t.fmod nsPerDay := Int.fmod_nonneg' t (by decide)
  have h2 : t.fmod nsPerDay < nsPerDay := Int.fmod_lt_of_pos t (by decide)
  unfold toDays
  unfold nsPerDay at h h1 h2 ⊢
  omega

/-- C5: each duration field of a resolved change is the floor of the
elapsed whole days between the two timestamps — the unique integer `d`
with `d·nsPerDay ≤ elapsed < (d+1)·nsPerDay` — and the computation is
total, so a change whose release precedes its merge still gets a defined
(negative) value. -/
theorem duration_floor_days (describe : String → GitResult)
    (releases : List Release) (prs : List PullRequest) (l : List PRData)
    (h : prsDataList describe releases prs = .ok l) :
    ∀ r ∈ l,
      (nsPerDay * openDays r ≤ r.released_at - r.created_at ∧
        r.released_at - r.created_at < nsPerDay * (openDays r + 1)) ∧
      (nsPerDay * mergedDays r ≤ r.released_at - r.merged_at ∧
        r.released_at - r.merged_at < nsPerDay * (mergedDays r + 1)) := by
  intro r _
  exact ⟨toDays_floor (r.released_at - r.created_at),
    toDays_floor (r.released_at - r.merged_at)⟩

/-- Witness for C5, at the backdated-release input: the released-before-
merge anomaly still yields defined duration values that satisfy the floor
bounds. -/
theorem duration_floor_days_witness :
    (nsPerDay * openDays backdatedRecord ≤
        backdatedRecord.released_at - backdatedRecord.created_at ∧
      backdatedRecord.released_at - backdatedRecord.created_at <
        nsPerDay * (openDays backdatedRecord + 1)) ∧
    (nsPerDay * mergedDays backdatedRecord ≤
        backdatedRecord.released_at - backdatedRecord.merged_at ∧
      backdatedRecord.released_at - backdatedRecord.merged_at <
        nsPerDay * (mergedDays backdatedRecord + 1)) :=
  duration_floor_days backdatedDescribe backdatedReleases [backdatedPR]
    [backdatedRecord] rfl backdatedRecord (by simp)

theorem strLeAux_total : ∀ as bs : List Char,
    strLeAux as bs = true ∨ strLeAux bs as = true
  | [], _ => Or.inl rfl
  | _ :: _, [] => Or.inr rfl
  | a :: as, b :: bs => by
      unfold strLeAux
      rcases lt_trichotomy a b with h | h | h
      · left
        rw [if_pos h]
      · subst h
        simp only [if_neg (lt_irrefl a)]
        exact strLeAux_total as bs
      · right
        rw [if_pos h]

theorem strLe_total (a b : String) : strLe a b = true ∨ strLe b a = true :=
  strLeAux_total a.data b.data

theorem chain'_insertKey (k : String) (ks : List String)
    (h : List.Chain' (fun a b => strLe a b = true) ks) :
    List.Chain' (fun a b => strLe a b = true) (insertKey k ks) := by
  induction ks with
  | nil => simp [insertKey]
  | cons a t ih =>
      rw [insertKey]
      by_cases hka : strLe k a = true
      · rw [if_pos hka, List.chain'_cons]
        exact ⟨hka, h⟩
      · rw [if_neg hka]
        have hak : strLe a k = true := (strLe_total k a).resolve_left hka
        cases t with
        | nil =>
            rw [insertKey, List.chain'_cons]
            exact ⟨hak, List.chain'_singleton k⟩
        | cons b t' =>
            rw [List.chain'_cons] at h
            obtain ⟨hab, hbt⟩ := h
            have hins := ih hbt
            by_cases hkb : strLe k b = true
            · rw [insertKey, if_pos hkb] at hins ⊢
              rw [List.chain'_cons]
              exact ⟨hak, hins⟩
            · rw [insertKey, if_neg hkb] at hins ⊢
              rw [List.chain'_cons]
              exact ⟨hab, hins⟩

theorem chain'_sortKeys (ks : List String) :
    List.Chain' (fun a b => strLe a b = true) (sortKeys ks) := by
  induction ks with
  | nil => simp [sortKeys]
  | cons a t ih => exact chain'_insertKey a (sortKeys t) ih

theorem insertKey_perm (k : String) (ks : List String) :
    (insertKey k ks).Perm (k :: ks) := by
  induction ks with
  | nil => exact List.Perm.refl _
  | cons a t ih =>
      rw [insertKey]
      by_cases h : strLe k a = true
      · rw [if_pos h]
      · rw [if_neg h]
        exact (List.Perm.cons a ih).trans (List.Perm.swap k a t)

theorem sortKeys_perm (ks : List String) : (sortKeys ks).Perm ks := by
  induction ks with
  | nil => exact List.Perm.refl _
  | cons a t ih => exact (insertKey_perm a (sortKeys t)).trans (List.Perm.cons a ih)

theorem groupKeys_nodup (l : List PRData) : (groupKeys l).Nodup := by
  unfold groupKeys
  exact ((sortKeys_perm _).nodup_iff).2 (List.nodup_dedup _)

theorem mem_groupKeys {l : List PRData} {k : String} :
    k ∈ groupKeys l ↔ ∃ r ∈ l, r.release = k := by
  unfold groupKeys
  rw [(sortKeys_perm _).mem_iff, List.mem_dedup, List.mem_map]

theorem meanQ_map (f : PRData → Int) (xs : List PRData) :
    meanQ (xs.map f) = (xs.map fun r => ((f r : ℚ))).sum / (xs.length : ℚ) := by
  unfold meanQ
  rw [List.map_map, List.length_map]
  rfl

theorem countP_eq_one_of_nodup_mem {ks : List String} {t : String}
    (hnd : ks.Nodup) (hm : t ∈ ks) :
    (ks.countP fun k => decide (k = t)) = 1 := by
  induction ks with
  | nil => cases hm
  | cons a ks ih =>
      rw [List.countP_cons]
      rcases List.mem_cons.1 hm with h | h
      · subst h
        have hnotin : t ∉ ks := (List.nodup_cons.1 hnd).1
        rw [List.countP_eq_zero.2 fun x hx => by
          simp only [decide_eq_true_eq]
          intro he
          exact hnotin (he ▸ hx)]
        simp
      · have hat : ¬(a = t) := by
          intro he
          exact (List.nodup_cons.1 hnd).1 (he ▸ h)
        rw [ih (List.nodup_cons.1 hnd).2 h]
        simp [hat]

/-- C6: every resolved change belongs to exactly one release group of the
`groupby('release')` result, each group is non-empty and its reported mean
of each duration field equals the sum of its members' durations divided by
the member count, and the repository-wide figure is the arithmetic mean of
each duration field over all resolved changes. -/
theorem grouping_completeness (l : List PRData) :
    (∀ r ∈ l, ((groupsOf l).countP fun g => decide (r ∈ g.2)) = 1) ∧
    (∀ g ∈ groupsOf l, g.2 ≠ [] ∧
      (statsOfGroup g.2).open_to_release_days =
        (g.2.map fun r => ((openDays r : ℚ))).sum / (g.2.length : ℚ) ∧
      (statsOfGroup g.2).merged_to_release_days =
        (g.2.map fun r => ((mergedDays r : ℚ))).sum / (g.2.length : ℚ)) ∧
    ((overallStats l).open_to_release_days =
        (l.map fun r => ((openDays r : ℚ))).sum / (l.length : ℚ) ∧
      (overallStats l).merged_to_release_days =
        (l.map fun r => ((mergedDays r : ℚ))).sum / (l.length : ℚ)) := by
  refine ⟨?_, ?_, ?_, ?_⟩
  · intro r hr
    unfold groupsOf
    rw [List.countP_map]
    have hcong : (groupKeys l).countP
          ((fun g : String × List PRData => decide (r ∈ g.2)) ∘
            fun k => (k, l.filter fun x => x.release = k)) =
        (groupKeys l).countP fun k => decide (k = r.release) := by
      refine List.countP_congr fun k _ => ?_
      simp only [Function.comp, decide_eq_true_eq, List.mem_filter, hr, true_and]
      constructor
      · intro hh
        exact hh.symm
      · intro hh
        exact hh.symm
    rw [hcong]
    exact countP_eq_one_of_nodup_mem (groupKeys_nodup l)
      (mem_groupKeys.2 ⟨r, hr, rfl⟩)
  · intro g hg
    unfold groupsOf at hg
    obtain ⟨k, hk, rfl⟩ := List.mem_map.1 hg
    obtain ⟨r, hr, hrk⟩ := mem_groupKeys.1 hk
    refine ⟨?_, ?_, ?_⟩
    · intro hemp
      have hemp' : (l.filter fun x => x.release = k) = [] := hemp
      have hmem : r ∈ l.filter fun x => x.release = k :=
        List.mem_filter.2 ⟨hr, by simp [hrk]⟩
      rw [hemp'] at hmem
      cases hmem
    · exact meanQ_map openDays _
    · exact meanQ_map mergedDays _
  · exact meanQ_map openDays l
  · exact meanQ_map mergedDays l

/-- Witness for C6: in the demonstration repository, change #1 lies in
exactly one release group, and the overall open-to-release mean is the
arithmetic mean over all resolved changes. -/
theorem grouping_completeness_witness :
    ((groupsOf demoRecords).countP fun g =>
      decide ((⟨1, "v1.0.0", dayNs 1, dayNs 5, dayNs 10⟩ : PRData) ∈ g.2)) = 1 ∧
    (overallStats demoRecords).open_to_release_days =
      (demoRecords.map fun r => ((openDays r : ℚ))).sum / (demoRecords.length : ℚ) :=
  ⟨(grouping_completeness demoRecords).1
      ⟨1, "v1.0.0", dayNs 1, dayNs 5, dayNs 10⟩ (by simp [demoRecords]),
   (grouping_completeness demoRecords).2.2.1⟩

theorem groupby_keys (l : List PRData) :
    (groupby l).map Prod.fst = groupKeys l := by
  unfold groupby groupsOf
  rw [List.map_map, List.map_map]
  have h : ((Prod.fst ∘ fun g : String × List PRData => (g.1, statsOfGroup g.2)) ∘
      fun k => (k, l.filter fun r => r.release = k)) = fun k => k := rfl
  rw [h]
  simp

/-- Releases of a repository whose changes are encountered in
anti-alphabetical release order. -/
def orderReleases : List Release :=
  [⟨"v1.0.0", dayNs 10⟩, ⟨"v1.1.0", dayNs 41⟩]

/-- Commit graph for the encounter-order repository. -/
def orderDescribe : String → GitResult := fun sha =>
  if sha = "sha1" then .ok "v1.0.0" else .ok "v1.1.0~2"

/-- PRs listed so that the first resolved change belongs to `v1.1.0` and
the second to `v1.0.0`. -/
def orderPRs : List PullRequest :=
  [⟨2, dayNs 20, some (dayNs 25), "sha2"⟩,
   ⟨1, dayNs 1, some (dayNs 5), "sha1"⟩]

/-- Rows produced for the encounter-order repository: release `v1.1.0` is
seen first. -/
def orderRecords : List PRData :=
  [⟨2, "v1.1.0", dayNs 20, dayNs 25, dayNs 41⟩,
   ⟨1, "v1.0.0", dayNs 1, dayNs 5, dayNs 10⟩]

/-- Counterexample to C8: in a repository whose resolved changes encounter
`v1.1.0` before `v1.0.0`, the per-release breakdown lists `v1.0.0` first —
pandas `groupby` sorts group keys — so its entries are not in the order
the releases were first seen. -/
theorem by_release_order_counterexample :
    prsDataList orderDescribe orderReleases orderPRs = .ok orderRecords ∧
    leadTimeRepo orderDescribe orderReleases orderPRs =
      .ok (some ⟨overallStats orderRecords, groupby orderRecords⟩) ∧
    (orderRecords.map fun r => r.release).dedup = ["v1.1.0", "v1.0.0"] ∧
    (groupby orderRecords).map Prod.fst = ["v1.0.0", "v1.1.0"] ∧
    (groupby orderRecords).map Prod.fst ≠
      (orderRecords.map fun r => r.release).dedup := by
  refine ⟨rfl, rfl, by decide, rfl, by decide⟩

/-- C8 (amended): the per-release breakdown of a repository with at least
one resolved change is keyed by exactly the distinct releases of its
resolved changes, but its entries appear in ascending lexicographic order
of tag name — the sort pandas `groupby` applies — not in the order the
releases were first encountered. -/
theorem by_release_sorted (describe : String → GitResult)
    (releases : List Release) (prs : List PullRequest) (out : RepoOutput)
    (h : leadTimeRepo describe releases prs = .ok (some out)) :
    List.Chain' (fun a b => strLe a b = true) (out.by_release.map Prod.fst) ∧
    ∃ l, prsDataList describe releases prs = .ok l ∧
      (out.by_release.map Prod.fst).Perm ((l.map fun r => r.release).dedup) := by
  unfold leadTimeRepo at h
  by_cases hrel : releases = []
  · rw [if_pos hrel] at h
    simp at h
  · rw [if_neg hrel] at h
    cases hp : prsDataList describe releases prs with
    | error e =>
        rw [hp] at h
        simp at h
    | ok l =>
        rw [hp] at h
        cases l with
        | nil => simp at h
        | cons r0 l0 =>
            have h2 : Except.ok (ε := String)
                (some (⟨overallStats (r0 :: l0), groupby (r0 :: l0)⟩ : RepoOutput)) =
                .ok (some out) := h
            simp only [Except.ok.injEq, Option.some.injEq] at h2
            subst h2
            constructor
            · rw [groupby_keys]
              exact chain'_sortKeys _
            · refine ⟨r0 :: l0, rfl, ?_⟩
              rw [groupby_keys]
              exact sortKeys_perm _

/-- Witness for C8 (amended), at the encounter-order repository: the
breakdown keys are sorted and are a permutation of the distinct releases
of the resolved changes. -/
theorem by_release_sorted_witness :
    List.Chain' (fun a b => strLe a b = true)
      (((⟨overallStats orderRecords, groupby orderRecords⟩ : RepoOutput)).by_release.map
        Prod.fst) ∧
    ∃ l, prsDataList orderDescribe orderReleases orderPRs = .ok l ∧
      ((((⟨overallStats orderRecords, groupby orderRecords⟩ : RepoOutput)).by_release.map
        Prod.fst).Perm ((l.map fun r => r.release).dedup)) :=
  by_release_sorted orderDescribe orderReleases orderPRs
    ⟨overallStats orderRecords, groupby orderRecords⟩ rfl

end Releases
